import Mathlib

/-!
Verification of the Diavgeia monthly-digest pipeline
(`diavgeia_monthly_digest.py` / `digest_monthly.py`).

The Python source is shallowly embedded: pandas `DataFrame`s become lists of
records, `math.nan`/`None` cells become `Option` values, Python `float`
arithmetic on day counts and percentages is modelled over `ℚ`, and a Python
`date`/`datetime` is a year-month-day(-time) structure.  Fallible Python
calls (the `datetime.date` constructor, a pandas column access that can raise
`KeyError`) return `Option`/`Except`.

Calendar model: years are unbounded integers.  Python's `datetime.date`
restricts years to 1..9999; that bound plays no role in the window arithmetic
verified here and is not modelled.
-/

/-- A calendar date, as produced by Python `datetime.date`. -/
structure PyDate where
  year : Int
  month : Nat
  day : Nat
deriving DecidableEq, Repr

/-- The Gregorian leap-year rule used by Python `datetime`/`calendar`. -/
def isLeap (y : Int) : Bool :=
  y % 4 == 0 && (y % 100 != 0 || y % 400 == 0)

/-- Days in a calendar month (Gregorian). -/
def daysInMonth (y : Int) (m : Nat) : Nat :=
  match m with
  | 1 => 31
  | 2 => if isLeap y then 29 else 28
  | 3 => 31
  | 4 => 30
  | 5 => 31
  | 6 => 30
  | 7 => 31
  | 8 => 31
  | 9 => 30
  | 10 => 31
  | 11 => 30
  | 12 => 31
  | _ => 0

/-- The checked `datetime.date(y, m, d)` constructor: `none` models the
`ValueError` Python raises on an out-of-range month or day. -/
def mkDate (y : Int) (m d : Nat) : Option PyDate :=
  if 1 ≤ m ∧ m ≤ 12 ∧ 1 ≤ d ∧ d ≤ daysInMonth y m then some ⟨y, m, d⟩ else none

/-- `d + timedelta(days=1)` on a valid date. -/
def nextDay (d : PyDate) : PyDate :=
  if d.day < daysInMonth d.year d.month then ⟨d.year, d.month, d.day + 1⟩
  else if d.month < 12 then ⟨d.year, d.month + 1, 1⟩
  else ⟨d.year + 1, 1, 1⟩

/-- `d - timedelta(days=1)` on a valid date. -/
def prevDay (d : PyDate) : PyDate :=
  if 1 < d.day then ⟨d.year, d.month, d.day - 1⟩
  else if 1 < d.month then ⟨d.year, d.month - 1, daysInMonth d.year (d.month - 1)⟩
  else ⟨d.year - 1, 12, 31⟩

/-- Lexicographic order on dates (chronological order for valid dates). -/
def dateLe (a b : PyDate) : Prop :=
  a.year < b.year ∨ (a.year = b.year ∧
    (a.month < b.month ∨ (a.month = b.month ∧ a.day ≤ b.day)))

instance : DecidablePred fun p : PyDate × PyDate => dateLe p.1 p.2 := by
  intro p; unfold dateLe; infer_instance

instance (a b : PyDate) : Decidable (dateLe a b) := by
  unfold dateLe; infer_instance

/-- `month_bounds` from `diavgeia_monthly_digest.py` (lines 43-47): modular
month/year arithmetic.  `start = date(y, m, 1)`;
`next_month = date(y + m // 12, m % 12 + 1, 1)`; `end = next_month - 1 day`. -/
def month_bounds (year : Int) (month : Nat) : Option (PyDate × PyDate) :=
  match mkDate year month 1 with
  | none => none
  | some start =>
    match mkDate (year + (month / 12 : Nat)) ((month % 12) + 1) 1 with
    | none => none
    | some next_month => some (start, prevDay next_month)

/-- `month_bounds` from `digest_monthly.py` (lines 43-49): the day-28-plus-4
trick.  `start = date(y, m, 1)`; `next_month = start.replace(day=28) + 4 days`;
`end = next_month.replace(day=1) - 1 day`.  (The window label string is
rendering-only and not modelled.) -/
def month_bounds_28 (year : Int) (month : Nat) : Option (PyDate × PyDate) :=
  match mkDate year month 1 with
  | none => none
  | some start =>
    match mkDate year month 28 with
    | none => none
    | some d28 =>
      let next_month := nextDay (nextDay (nextDay (nextDay d28)))
      match mkDate next_month.year next_month.month 1 with
      | none => none
      | some first_of_next => some (start, prevDay first_of_next)

/-- A parsed timestamp (`pd.to_datetime` result), date plus time of day. -/
structure PyDateTime where
  date : PyDate
  hour : Nat
  minute : Nat
  second : Nat
deriving DecidableEq, Repr

/-- Days in all years before year `y` (proleptic Gregorian), for `y ≥ 1`. -/
def daysBeforeYear (y : Int) : Int :=
  365 * (y - 1) + (y - 1) / 4 - (y - 1) / 100 + (y - 1) / 400

/-- Days in the months of year `y` strictly before month `m`. -/
def daysBeforeMonth (y : Int) (m : Nat) : Nat :=
  (List.range m).foldl (fun acc k => if 1 ≤ k then acc + daysInMonth y k else acc) 0

/-- Ordinal day number of a date. -/
def dayOrdinal (d : PyDate) : Int :=
  daysBeforeYear d.year + daysBeforeMonth d.year d.month + d.day

/-- Seconds-since-epoch of a timestamp; differences of these model
`(subm_dt - issue_dt).total_seconds()`. -/
def tsSeconds (t : PyDateTime) : Int :=
  dayOrdinal t.date * 86400 + t.hour * 3600 + t.minute * 60 + t.second

/-- Split a character list at every separator matching `p`
(Python `str.split(sep)` with a one-character separator). -/
def splitChars (p : Char → Bool) : List Char → List (List Char)
  | [] => [[]]
  | c :: rest =>
    let r := splitChars p rest
    if p c then [] :: r
    else
      match r with
      | [] => [[c]]
      | h :: t => (c :: h) :: t

/-- Parse a non-empty all-digit character group as a number. -/
def digitsToNat (l : List Char) : Option Nat :=
  if l.length = 0 ∨ ¬ l.all Char.isDigit then none
  else some (l.foldl (fun a c => a * 10 + (c.toNat - 48)) 0)

/-- Parse a 1-or-2-digit field of `strptime`. -/
def twoDigits (l : List Char) : Option Nat :=
  if 2 < l.length then none else digitsToNat l

/-- The fixed-format timestamp parse `pd.to_datetime(value,
format="%d/%m/%Y %H:%M:%S", errors="coerce")`: `none` models `NaT`.
Calendar validity is checked; the feed's years are four-digit.  (pandas
additionally rejects timestamps outside its nanosecond-epoch range, roughly
years 1677-2262; that bound is irrelevant to this data and not modelled.) -/
def parseTs (s : String) : Option PyDateTime :=
  match splitChars (· == ' ') s.data with
  | [ds, ts] =>
    match splitChars (· == '/') ds, splitChars (· == ':') ts with
    | [dd, mm, yyyy], [hh, mi, ss] =>
      match twoDigits dd, twoDigits mm, (if yyyy.length = 4 then digitsToNat yyyy else none),
            twoDigits hh, twoDigits mi, twoDigits ss with
      | some d, some m, some y, some h, some minu, some sec =>
        if 1 ≤ y ∧ 1 ≤ m ∧ m ≤ 12 ∧ 1 ≤ d ∧ d ≤ daysInMonth y m ∧
           h ≤ 23 ∧ minu ≤ 59 ∧ sec ≤ 59
        then some ⟨⟨y, m, d⟩, h, minu, sec⟩ else none
      | _, _, _, _, _, _ => none
    | _, _ => none
  | _ => none

/-- A normalized decision record (one row of an enriched frame).  A field of
type `Option (Option String)` distinguishes "key absent from the raw record"
(outer `none`) from "key present with a null value" (inner `none`); the cell
a pandas frame shows is the `join` of the two, with `none` rendered as NaN. -/
structure NRec where
  ada : Option String
  issue_dt : Option PyDateTime
  subm_dt : Option PyDateTime
  delay_days : Option ℚ
  publishTimestamp : Option (Option String)
  organizationLabel : Option (Option String)
deriving DecidableEq, Repr

/-- The KPI snapshot of `compute_kpis`; `none` models `math.nan`. -/
structure Kpis where
  count : Nat
  median : Option ℚ
  p90 : Option ℚ
  miss_pub : Option ℚ
  miss_org : Option ℚ
deriving DecidableEq, Repr

/-- pandas `Series.median(skipna=True)` over the defined values: sort, take
the middle element, or the mean of the two middle elements; NaN if empty. -/
def medianOpt (l : List ℚ) : Option ℚ :=
  if l.length = 0 then none
  else
    let s := List.insertionSort (· ≤ ·) l
    let n := s.length
    if n % 2 = 1 then some (s.getD (n / 2) 0)
    else some ((s.getD (n / 2 - 1) 0 + s.getD (n / 2) 0) / 2)

/-- pandas `Series.quantile(0.9)` (linear interpolation) over the defined
values; NaN if empty. -/
def quantile90 (l : List ℚ) : Option ℚ :=
  if l.length = 0 then none
  else
    let s := List.insertionSort (· ≤ ·) l
    let n := s.length
    let pos : ℚ := ((n : ℚ) - 1) * (9 / 10)
    let lo : Nat := pos.floor.toNat
    let frac : ℚ := pos - (lo : ℚ)
    let a := s.getD lo 0
    let b := s.getD (lo + 1) a
    some (a + frac * (b - a))

/-- `_pct_missing` of `digest_monthly.py` applied to `df.get(name, empty)`,
which is also `df[name].isna().mean()*100 if name in df else nan` of
`diavgeia_monthly_digest.py`: the column exists when at least one record
carries the key; rows without the key or with a null value count as missing. -/
def pct_missing (col : List (Option (Option String))) : Option ℚ :=
  if col.any (fun v => v.isSome) then
    some ((((col.filter (fun v => (v.bind id) = none)).length : ℚ) / (col.length : ℚ)) * 100)
  else none

/-- `compute_kpis` (`digest_monthly.py` lines 124-141 and
`diavgeia_monthly_digest.py` lines 107-122, which coincide under this model). -/
def compute_kpis (df : List NRec) : Kpis :=
  if df.length = 0 then ⟨0, none, none, none, none⟩
  else
    { count := df.length
      median := medianOpt (df.filterMap (·.delay_days))
      p90 := quantile90 (df.filterMap (·.delay_days))
      miss_pub := pct_missing (df.map (·.publishTimestamp))
      miss_org := pct_missing (df.map (·.organizationLabel)) }

/-- `pct_change` (`digest_monthly.py` lines 144-147 and
`diavgeia_monthly_digest.py` lines 125-128).  `none` in `prev` models a prior
that is Python `None` or NaN; `none` in `cur` models a NaN current value
(NaN arithmetic propagates to a NaN result). -/
def pct_change (cur prev : Option ℚ) : Option ℚ :=
  match prev with
  | none => none
  | some p =>
    if p = 0 then none
    else
      match cur with
      | none => none
      | some c => some ((c - p) / p * 100)

/-- The `month_key = issue_dt.dt.strftime("%Y-%m")` grouping key: a record
with an unparseable issue date (`NaT`) has no key and is dropped by
`groupby`.  Lexicographic order on the zero-padded key strings coincides
with the (year, month) order `monthLe` below. -/
def monthKey (r : NRec) : Option (Int × Nat) :=
  r.issue_dt.map (fun t => (t.date.year, t.date.month))

/-- Chronological order of month keys. -/
def monthLe (a b : Int × Nat) : Prop :=
  a.1 < b.1 ∨ (a.1 = b.1 ∧ a.2 ≤ b.2)

instance : DecidableRel monthLe := fun a b => by unfold monthLe; infer_instance

/-- One row of the grouped monthly frame
`df.groupby("month_key").agg(count=("ada", "count"), median=("delay_days", "median"))`. -/
structure MonthEntry where
  month : Int × Nat
  count : Nat
  median : Option ℚ
deriving DecidableEq, Repr

/-- The sorted monthly frame shared by `compute_recent_months` and
`compute_trend_stats`: one row per distinct month key present in the data,
ascending; `count` counts the group's non-null `ada` cells, `median` is the
group's delay median (NaN when no delay in the group is defined). -/
def monthlySeries (df : List NRec) : List MonthEntry :=
  let keys := (df.filterMap monthKey).dedup
  (List.insertionSort monthLe keys).map (fun k =>
    let grp := df.filter (fun r => monthKey r = some k)
    { month := k
      count := (grp.filter (fun r => r.ada.isSome)).length
      median := medianOpt (grp.filterMap (·.delay_days)) })

/-- pandas `DataFrame.tail(n)`. -/
def pdTail (n : Nat) (l : List MonthEntry) : List MonthEntry :=
  l.drop (l.length - n)

/-- `compute_recent_months` (`diavgeia_monthly_digest.py` lines 237-255):
the last six rows of the monthly frame. -/
def compute_recent_months (df : List NRec) : List MonthEntry :=
  if df.length = 0 then [] else pdTail 6 (monthlySeries df)

/-- Python `int(q)`: truncation toward zero. -/
def intTrunc (q : ℚ) : Int :=
  if 0 ≤ q then q.floor else q.ceil

/-- Mean of a list of naturals as a rational (pandas `Series.mean`). -/
def natMean (l : List Nat) : ℚ :=
  ((l.foldl (· + ·) 0 : Nat) : ℚ) / (l.length : ℚ)

/-- Mean of the defined entries (pandas `Series.mean` with `skipna`);
NaN when none is defined. -/
def optMean (l : List (Option ℚ)) : Option ℚ :=
  let vals := l.filterMap id
  if vals.length = 0 then none
  else some ((vals.foldl (· + ·) 0) / (vals.length : ℚ))

/-- Round half to even at a given decimal, as Python `round(x, 1)` /
`round(x, 2)` and pandas `Series.round` do. -/
def roundHalfEven (q : ℚ) : Int :=
  if q - ⌊q⌋ = 1 / 2 then (if 2 ∣ ⌊q⌋ then ⌊q⌋ else ⌊q⌋ + 1)
  else round q

/-- Python `round(q, 1)`. -/
def round1 (q : ℚ) : ℚ := (roundHalfEven (q * 10) : ℚ) / 10

/-- Python `round(q, 2)`. -/
def round2 (q : ℚ) : ℚ := (roundHalfEven (q * 100) : ℚ) / 100

/-- The trend statistics of `compute_trend_stats`
(`diavgeia_monthly_digest.py` lines 258-291). -/
structure TrendStats where
  count_avg6 : Int
  count_avg12 : Int
  median_avg6 : Option ℚ
  median_avg12 : Option ℚ
  count_m1 : Int
  count_m2 : Int
  count_m3 : Int
  median_m1 : Option ℚ
  median_m2 : Option ℚ
  median_m3 : Option ℚ
deriving DecidableEq, Repr

/-- `rel(index, key)` of `compute_trend_stats` over `tail = monthly.tail(4)`:
`tail[-(index+2)]` when `len(tail) >= index+2`, else the literal `0`
(modelled for the median keys as `some 0`, the rational the Python `0`
rounds to). -/
def relEntry (tail : List MonthEntry) (index : Nat) : Option MonthEntry :=
  if index + 2 ≤ tail.length then tail.get? (tail.length - (index + 2)) else none

/-- `compute_trend_stats` (`diavgeia_monthly_digest.py` lines 258-291):
averages over the last 6 and 12 rows of the monthly frame and the three
month-over-month reference rows from `monthly.tail(4)`. -/
def compute_trend_stats (df : List NRec) : Option TrendStats :=
  if df.length = 0 then none
  else
    let monthly := monthlySeries df
    let last6 := pdTail 6 monthly
    let last12 := pdTail 12 monthly
    let tail := pdTail 4 monthly
    let relCount := fun i => match relEntry tail i with
      | some e => (e.count : Int)
      | none => 0
    let relMedian := fun i => match relEntry tail i with
      | some e => e.median.map round2
      | none => some 0
    some
      { count_avg6 := if last6.length ≠ 0 then intTrunc (natMean (last6.map (·.count))) else 0
        count_avg12 := if last12.length ≠ 0 then intTrunc (natMean (last12.map (·.count))) else 0
        median_avg6 := if last6.length ≠ 0 then (optMean (last6.map (·.median))).map round2 else some 0
        median_avg12 := if last12.length ≠ 0 then (optMean (last12.map (·.median))).map round2 else some 0
        count_m1 := relCount 0
        count_m2 := relCount 1
        count_m3 := relCount 2
        median_m1 := relMedian 0
        median_m2 := relMedian 1
        median_m3 := relMedian 2 }

/-- Descending-count order used by `value_counts()`. -/
def countDesc (a b : String × Nat) : Prop := b.2 ≤ a.2

instance : DecidableRel countDesc := fun a b => Nat.decLe b.2 a.2

/-- pandas `Series.value_counts()` over the non-null cells: the distinct
values with their multiplicities, most frequent first.  (The order among
equal counts is not contractual in pandas and no theorem below depends
on it.) -/
def value_counts (vals : List String) : List (String × Nat) :=
  List.insertionSort countDesc (vals.dedup.map (fun c => (c, vals.count c)))

/-- `compute_mix` (`diavgeia_monthly_digest.py` lines 294-314): the top five
decision-type codes by share of the non-null `decisionTypeUid` cells, each
with its label (empty for an unmapped code) and its percentage share rounded
to one decimal; the second component is the `unknown_codes` list the source
writes to `artifacts/unmapped_codes.csv`.  An input column that is absent
from the frame behaves as the all-null column (both yield an empty mix). -/
def compute_mix (codes : List (Option String)) (decision_labels : List (String × String)) :
    List (String × String × ℚ) × List String :=
  if codes.length = 0 then ([], [])
  else
    let vals := codes.filterMap id
    let total := vals.length
    let mix := ((value_counts vals).take 5).map (fun p =>
      (p.1, (decision_labels.lookup p.1).getD "", round1 ((p.2 : ℚ) / (total : ℚ) * 100)))
    (mix, (mix.filter (fun t => t.2.1 = "")).map (·.1))

/-- Sort order of `df.sort_values("delay_days", ascending=False)`: larger
delays first, NaN delays last (`na_position="last"`). -/
def delayDescB (a b : NRec) : Bool :=
  match a.delay_days, b.delay_days with
  | some x, some y => decide (y ≤ x)
  | some _, none => true
  | none, some _ => false
  | none, none => true

/-- `drop_duplicates(subset=["ada"])`: keep the first row for each `ada`
value (pandas treats the NaN identifier as one duplicate-group as well). -/
def drop_duplicates_ada (seen : List (Option String)) : List NRec → List NRec
  | [] => []
  | r :: rs =>
    if r.ada ∈ seen then drop_duplicates_ada seen rs
    else r :: drop_duplicates_ada (r.ada :: seen) rs

/-- `slowest_decisions` (`digest_monthly.py` lines 167-190) and
`compute_outliers` (`diavgeia_monthly_digest.py` lines 317-333): sort by
delay descending, deduplicate by `ada` keeping the first row, take the top
`limit` (10 in the callers).  The column sub-selection of the source keeps
whole records here. -/
def slowest_decisions (df : List NRec) (limit : Nat) : List NRec :=
  ((drop_duplicates_ada [] (List.insertionSort (fun a b => delayDescB a b = true) df)).take limit)

/-- `PAGE_SIZE` of both scripts. -/
def PAGE_SIZE : Nat := 500

/-- `MAX_RESULTS` of `digest_monthly.py`. -/
def MAX_RESULTS : Nat := 5000

/-- One page request issued by the fetcher: the page index, the requested
size, and the length of the returned batch. -/
structure LogEntry where
  page : Nat
  size : Nat
  batchLen : Nat
deriving DecidableEq, Repr

/-- The loop of `fetch_export` (`digest_monthly.py` lines 65-98).  The remote
collaborator is the oracle `pages : page → size → batch`.  Returns the
accumulated rows together with the trace of issued page requests:
while `remaining > 0`, request `size = min(PAGE_SIZE, remaining)`; an empty
batch stops without accumulating; otherwise the batch is accumulated,
`remaining` shrinks by its length, and a batch shorter than `PAGE_SIZE`
stops. -/
def fetch_export_loop {α : Type} (pages : Nat → Nat → List α) (remaining page : Nat) :
    List α × List LogEntry :=
  if _h : remaining = 0 then ([], [])
  else
    let size := min PAGE_SIZE remaining
    let batch := pages page size
    if batch.length = 0 then ([], [⟨page, size, 0⟩])
    else
      if _hfull : batch.length < PAGE_SIZE then (batch, [⟨page, size, batch.length⟩])
      else
        let rest := fetch_export_loop pages (remaining - batch.length) (page + 1)
        (batch ++ rest.1, ⟨page, size, batch.length⟩ :: rest.2)
termination_by remaining
decreasing_by
  simp_wf
  have hp : 0 < PAGE_SIZE := by decide
  refine ⟨by omega, ?_⟩
  show 0 < batch.length
  omega

/-- `fetch_export` (`digest_monthly.py` lines 65-98): run the page loop from
page 0 with the `MAX_RESULTS` cap. -/
def fetch_export {α : Type} (pages : Nat → Nat → List α) : List α × List LogEntry :=
  fetch_export_loop pages MAX_RESULTS 0

/-- `prepare_windows` (`digest_monthly.py` lines 275-295); the same window
arithmetic closes `main` of `diavgeia_monthly_digest.py` (lines 541-545).
Each window is its (start, end) date pair; labels are rendering-only.
`none` models the `ValueError` a `date` constructor raises. -/
def prepare_windows (year : Int) (month : Nat) :
    Option ((PyDate × PyDate) × (PyDate × PyDate) × (PyDate × PyDate) ×
            (PyDate × PyDate) × (PyDate × PyDate)) :=
  match month_bounds_28 year month with
  | none => none
  | some current =>
    let prev_year := if 1 < month then year else year - 1
    let prev_month := if 1 < month then month - 1 else 12
    match month_bounds_28 prev_year prev_month with
    | none => none
    | some previous =>
      match mkDate year 1 1 with
      | none => none
      | some ytd_start =>
        match mkDate (year - 1) 1 1 with
        | none => none
        | some ytd_prev_start =>
          match mkDate (year - 1) month current.2.day with
          | none => none
          | some ytd_prev_end =>
            match month_bounds_28 (year - 1) month with
            | none => none
            | some yoy_month =>
              some (current, previous, (ytd_start, current.2),
                    (ytd_prev_start, ytd_prev_end), yoy_month)

/-- A raw record as fetched, before normalization; outer/inner `Option` as
in `NRec`. -/
structure RawRec where
  ada : Option String
  issueDate : Option (Option String)
  submissionTimestamp : Option (Option String)
deriving DecidableEq, Repr

/-- An enriched record: the raw record with the parsed datetime columns and
the delay appended. -/
structure EnrichedRec where
  raw : RawRec
  issue_dt : Option PyDateTime
  subm_dt : Option PyDateTime
  delay_days : Option ℚ
deriving DecidableEq, Repr

/-- Enrichment of one row: parse both timestamps with the fixed format and
compute `delay_days = (subm_dt - issue_dt).total_seconds() / 86400`
(NaN as soon as either side is NaT). -/
def enrichRecord (r : RawRec) : EnrichedRec :=
  let i := (r.issueDate.bind id).bind parseTs
  let s := (r.submissionTimestamp.bind id).bind parseTs
  { raw := r, issue_dt := i, subm_dt := s
    delay_days :=
      match i, s with
      | some a, some b => some (((tsSeconds b - tsSeconds a : Int) : ℚ) / 86400)
      | _, _ => none }

/-- `enrich_dates` (`digest_monthly.py` lines 101-115); `parse_dates` of
`diavgeia_monthly_digest.py` (lines 99-104) differs only in not short-cutting
the empty frame.  `df["issueDate"]` / `df["submissionTimestamp"]` raise
`KeyError` when the column does not exist, i.e. when no record of a
non-empty frame carries the key; `Except.error` models that exception. -/
def enrich_dates (df : List RawRec) : Except Unit (List EnrichedRec) :=
  if df.length = 0 then .ok []
  else if df.all (fun r => r.issueDate = none) then .error ()
  else if df.all (fun r => r.submissionTimestamp = none) then .error ()
  else .ok (df.map enrichRecord)

/-- Python list/`Series` boolean containment of one string in another
(`needle in hay`): is `needle` a contiguous substring of `hay`? -/
def isPrefixChars : List Char → List Char → Bool
  | [], _ => true
  | _ :: _, [] => false
  | a :: as2, b :: bs => a == b && isPrefixChars as2 bs

/-- Substring scan over the character list of the haystack. -/
def containsChars (needle : List Char) : List Char → Bool
  | [] => isPrefixChars needle []
  | c :: rest => isPrefixChars needle (c :: rest) || containsChars needle rest

/-- Python `needle in hay` on strings. -/
def strContains (hay needle : String) : Bool :=
  containsChars needle.toList hay.toList

/-- Python `str.upper` on one character, covering the ASCII range and the
monotonic Greek alphabet the region tables use. -/
def charUpper (c : Char) : Char :=
  let n := c.toNat
  if 0x3B1 ≤ n ∧ n ≤ 0x3C9 ∧ n ≠ 0x3C2 then Char.ofNat (n - 0x20)
  else if n = 0x3C2 then 'Σ'
  else if n = 0x3AC then 'Ά'
  else if n = 0x3AD then 'Έ'
  else if n = 0x3AE then 'Ή'
  else if n = 0x3AF then 'Ί'
  else if n = 0x3CC then 'Ό'
  else if n = 0x3CD then 'Ύ'
  else if n = 0x3CE then 'Ώ'
  else if n = 0x3CA then 'Ϊ'
  else if n = 0x3CB then 'Ϋ'
  else c.toUpper

/-- Python `value.upper()`: upper-case every character. -/
def pyUpper (s : String) : String := ⟨s.data.map charUpper⟩

/-- Python `key.lower()`; the frame's column names are ASCII. -/
def pyLower (s : String) : String := ⟨s.data.map Char.toLower⟩

/-- A whitespace character in the sense of Python `str.strip()`. -/
def isPySpace (c : Char) : Bool :=
  c == ' ' || c == '\t' || c == '\n' || c == '\r' || c == '\x0b' || c == '\x0c'

/-- Python `value.strip()`: drop leading and trailing whitespace. -/
def pyStrip (s : String) : String :=
  ⟨((s.data.dropWhile isPySpace).reverse.dropWhile isPySpace).reverse⟩

/-- `REGION_ALIASES` (`diavgeia_monthly_digest.py` lines 131-145), in the
source's insertion order. -/
def REGION_ALIASES : List (String × String) :=
  [("ΑΤΤΙΚΗ", "Αττική"),
   ("ΚΕΝΤΡΙΚΗ ΜΑΚΕΔΟΝΙΑ", "Κεντρική Μακεδονία"),
   ("ΔΥΤΙΚΗ ΜΑΚΕΔΟΝΙΑ", "Δυτική Μακεδονία"),
   ("ΔΥΤΙΚΗ ΕΛΛΑΔΑ", "Δυτική Ελλάδα"),
   ("ΑΝΑΤΟΛΙΚΗ ΜΑΚΕΔΟΝΙΑ ΚΑΙ ΘΡΑΚΗ", "Ανατολική Μακεδονία και Θράκη"),
   ("ΘΕΣΣΑΛΙΑ", "Θεσσαλία"),
   ("ΠΕΛΟΠΟΝΝΗΣΟΣ", "Πελοπόννησος"),
   ("ΗΠΕΙΡΟΣ", "Ήπειρος"),
   ("ΙΟΝΙΑ ΝΗΣΙΑ", "Ιόνια Νησιά"),
   ("ΝΟΤΙΟ ΑΙΓΑΙΟ", "Νότιο Αιγαίο"),
   ("ΒΟΡΕΙΟ ΑΙΓΑΙΟ", "Βόρειο Αιγαίο"),
   ("ΣΤΕΡΕΑ ΕΛΛΑΔΑ", "Στερεά Ελλάδα"),
   ("ΚΡΗΤΗ", "Κρήτη")]

/-- `REGION_KEYWORDS` (`diavgeia_monthly_digest.py` lines 147-180), in the
source's order. -/
def REGION_KEYWORDS : List (String × String) :=
  [("ΑΘΗΝ", "Αττική"), ("ΠΕΙΡ", "Αττική"), ("ΜΑΡΟΥΣΙ", "Αττική"),
   ("ΘΕΣΣΑΛΟΝΙΚ", "Κεντρική Μακεδονία"), ("ΣΕΡΡ", "Κεντρική Μακεδονία"),
   ("ΚΑΒΑΛ", "Ανατολική Μακεδονία και Θράκη"),
   ("ΚΟΜΟΤΗΝ", "Ανατολική Μακεδονία και Θράκη"),
   ("ΞΑΝΘ", "Ανατολική Μακεδονία και Θράκη"),
   ("ΠΑΤΡ", "Δυτική Ελλάδα"), ("ΑΓΡΙΝ", "Δυτική Ελλάδα"),
   ("ΙΩΑΝΝ", "Ήπειρος"),
   ("ΛΑΡΙΣ", "Θεσσαλία"), ("ΒΟΛ", "Θεσσαλία"), ("ΤΡΙΚ", "Θεσσαλία"),
   ("ΚΕΡΚΥΡ", "Ιόνια Νησιά"), ("ΖΑΚΥΝ", "Ιόνια Νησιά"), ("ΛΕΥΚΑΔ", "Ιόνια Νησιά"),
   ("ΡΟΔ", "Νότιο Αιγαίο"), ("ΣΥΡ", "Νότιο Αιγαίο"), ("ΚΩ", "Νότιο Αιγαίο"),
   ("ΜΥΤΙΛ", "Βόρειο Αιγαίο"), ("ΧΙ", "Βόρειο Αιγαίο"),
   ("ΗΡΑΚΛΕΙ", "Κρήτη"), ("ΧΑΝΙ", "Κρήτη"), ("ΡΕΘΥΜ", "Κρήτη"), ("ΛΑΣΙΘ", "Κρήτη"),
   ("ΤΡΙΠΟΛ", "Πελοπόννησος"), ("ΚΑΛΑΜΑΤ", "Πελοπόννησος"), ("ΚΟΡΙΝΘ", "Πελοπόννησος"),
   ("ΚΑΡΔΙΤ", "Θεσσαλία"),
   ("ΚΟΖΑΝ", "Δυτική Μακεδονία"), ("ΦΛΩΡΙΝ", "Δυτική Μακεδονία")]

/-- `normalize_region` (`diavgeia_monthly_digest.py` lines 196-203): upper-case
the trimmed value, map an empty value to the Unknown region, otherwise return
the canonical name of the first alias occurring in it as a substring, falling
back to the trimmed value itself. -/
def normalize_region (value : String) : String :=
  let upper := pyUpper (pyStrip value)
  if upper = "" then "Άγνωστη"
  else
    match REGION_ALIASES.findSome? (fun p => if strContains upper p.1 then some p.2 else none) with
    | some canonical => canonical
    | none => if pyStrip value = "" then "Άγνωστη" else pyStrip value

/-- A pandas row as `infer_region` sees it: the ordered column names with
their cell values (`none` models a cell that is not a string — NaN or a
non-string object). -/
abbrev Row := List (String × Option String)

/-- `row.get(key)`: the cell under the first column with that name. -/
def rowGet (row : Row) (k : String) : Option String :=
  match row.find? (fun p => p.1 == k) with
  | some p => p.2
  | none => none

/-- The second strategy of `infer_region`: the first column whose name
contains "region" (case-insensitive) holding a non-empty string value. -/
def region_field_value (row : Row) : Option String :=
  row.findSome? (fun p =>
    if strContains (pyLower p.1) "region" then
      match p.2 with
      | some v => if pyStrip v = "" then none else some v
      | none => none
    else none)

/-- The third strategy of `infer_region`: scan `organizationName`,
`organizationLabel`, `subject` (in that order) for the first region keyword
occurring in the upper-cased value; a string field without any keyword falls
through to the next field. -/
def keyword_region (row : Row) : Option String :=
  ["organizationName", "organizationLabel", "subject"].findSome? (fun f =>
    match rowGet row f with
    | some v =>
      let upper := pyUpper v
      REGION_KEYWORDS.findSome? (fun p => if strContains upper p.1 then some p.2 else none)
    | none => none)

/-- `infer_region` (`diavgeia_monthly_digest.py` lines 206-225): explicit
`organizationUid → region` table hit, else region-named field, else keyword
scan, else the Unknown region `"Άγνωστη"`. -/
def infer_region (row : Row) (mapping : List (String × String)) : String :=
  match (rowGet row "organizationUid").bind (fun uid => mapping.lookup uid) with
  | some region => region
  | none =>
    match region_field_value row with
    | some v => normalize_region v
    | none =>
      match keyword_region row with
      | some region => region
      | none => "Άγνωστη"



/-- The spec's own worked example of a sparse year-to-date batch: two records
issued in March 2024, one in May 2024, none in April 2024, with delays 1, 3
and 2 days. -/
def C1batch : List NRec :=
  [{ ada := some "R1", issue_dt := some ⟨⟨2024, 3, 5⟩, 0, 0, 0⟩,
     subm_dt := none, delay_days := some 1, publishTimestamp := none,
     organizationLabel := none },
   { ada := some "R2", issue_dt := some ⟨⟨2024, 3, 20⟩, 0, 0, 0⟩,
     subm_dt := none, delay_days := some 3, publishTimestamp := none,
     organizationLabel := none },
   { ada := some "R3", issue_dt := some ⟨⟨2024, 5, 2⟩, 0, 0, 0⟩,
     subm_dt := none, delay_days := some 2, publishTimestamp := none,
     organizationLabel := none }]

/-- A raw record whose issuance timestamp is present but malformed. -/
def C8bad : RawRec :=
  { ada := some "R2", issueDate := some (some "garbage"),
    submissionTimestamp := some (some "01/03/2024 00:00:00") }

/-- A raw record with two well-formed timestamps a day and a half apart. -/
def C8good : RawRec :=
  { ada := some "R1", issueDate := some (some "01/03/2024 00:00:00"),
    submissionTimestamp := some (some "02/03/2024 12:00:00") }

/-- A demonstration remote collaborator: a full first page of 500 records,
then a short page of 300, honouring the requested size. -/
def demoPages (p s : Nat) : List Nat :=
  List.replicate (min s (if p = 0 then 500 else 300)) 0

/-! ## Theorems -/

theorem nextDay_step (y : Int) (m d : Nat) (h : d < daysInMonth y m) :
    nextDay ⟨y, m, d⟩ = ⟨y, m, d + 1⟩ := by
  simp [nextDay, h]

theorem nextDay_roll (y : Int) (m d : Nat) (h : ¬ d < daysInMonth y m) (hm : m < 12) :
    nextDay ⟨y, m, d⟩ = ⟨y, m + 1, 1⟩ := by
  simp [nextDay, h, hm]

theorem nextDay_rollYear (y : Int) (d : Nat) (h : ¬ d < daysInMonth y 12) :
    nextDay ⟨y, 12, d⟩ = ⟨y + 1, 1, 1⟩ := by
  simp [nextDay, h]

theorem daysInMonth_ge_28 (y : Int) (m : Nat) (h1 : 1 ≤ m) (h2 : m ≤ 12) :
    28 ≤ daysInMonth y m := by
  interval_cases m <;> cases hL : isLeap y <;> norm_num [daysInMonth, hL]

theorem daysInMonth_cases (y : Int) (m : Nat) (h1 : 1 ≤ m) (h2 : m ≤ 12) :
    daysInMonth y m = 28 ∨ daysInMonth y m = 29 ∨ daysInMonth y m = 30 ∨
    daysInMonth y m = 31 := by
  interval_cases m <;> cases hL : isLeap y <;> norm_num [daysInMonth, hL]

theorem nextDay4_from28 (y : Int) (m : Nat) (h1 : 1 ≤ m) (h2 : m ≤ 12) :
    nextDay (nextDay (nextDay (nextDay ⟨y, m, 28⟩))) =
      if daysInMonth y m = 31 then (if m = 12 then ⟨y + 1, 1, 1⟩ else ⟨y, m + 1, 1⟩)
      else if daysInMonth y m = 30 then ⟨y, m + 1, 2⟩
      else if daysInMonth y m = 29 then ⟨y, m + 1, 3⟩
      else ⟨y, m + 1, 4⟩ := by
  interval_cases m <;> cases hL : isLeap y <;>
    norm_num [daysInMonth, nextDay_step, nextDay_roll, nextDay_rollYear, hL]

theorem mkDate_first (y : Int) (m : Nat) (h1 : 1 ≤ m) (h2 : m ≤ 12) :
    mkDate y m 1 = some ⟨y, m, 1⟩ := by
  have h28 := daysInMonth_ge_28 y m h1 h2
  rw [mkDate, if_pos]
  exact ⟨h1, h2, by omega, by omega⟩

theorem month_bounds_spec (y : Int) (m : Nat) (h1 : 1 ≤ m) (h2 : m ≤ 12) :
    month_bounds y m = some (⟨y, m, 1⟩, ⟨y, m, daysInMonth y m⟩) := by
  interval_cases m <;> cases hL : isLeap y <;>
    norm_num [month_bounds, mkDate, daysInMonth, prevDay, hL]

theorem month_bounds_28_spec (y : Int) (m : Nat) (h1 : 1 ≤ m) (h2 : m ≤ 12) :
    month_bounds_28 y m = some (⟨y, m, 1⟩, ⟨y, m, daysInMonth y m⟩) := by
  have h28 := daysInMonth_ge_28 y m h1 h2
  have e28 : mkDate y m 28 = some ⟨y, m, 28⟩ := by
    rw [mkDate, if_pos]
    exact ⟨h1, h2, by omega, by omega⟩
  rw [month_bounds_28, mkDate_first y m h1 h2, e28]
  simp only []
  rw [nextDay4_from28 y m h1 h2]
  by_cases hm12 : m = 12
  · subst hm12
    rw [if_pos (by norm_num [daysInMonth]), if_pos rfl]
    rw [show mkDate (y + 1) 1 1 = some ⟨y + 1, 1, 1⟩ from
      mkDate_first (y + 1) 1 (by norm_num) (by norm_num)]
    simp only []
    norm_num [prevDay, daysInMonth]
  · have estep : prevDay ⟨y, m + 1, 1⟩ = ⟨y, m, daysInMonth y m⟩ := by
      rw [prevDay]
      simp [show ¬ (1 : Nat) < 1 from by omega, show (1 : Nat) < m + 1 from by omega]
    rcases daysInMonth_cases y m h1 h2 with h | h | h | h <;>
      rw [h] <;> norm_num [hm12] <;>
      rw [mkDate_first y (m + 1) (by omega) (by omega)] <;>
      simp only [] <;> rw [estep, h]

/-- C10: for every year and month with `1 ≤ month ≤ 12`, the modular-arithmetic
`month_bounds` of `diavgeia_monthly_digest.py` and the day-28-plus-4
`month_bounds` of `digest_monthly.py` return the same pair of dates, namely
the first and last calendar day of that month, and the start does not exceed
the end. -/
theorem month_bounds_implementations_agree (y : Int) (m : Nat)
    (h1 : 1 ≤ m) (h2 : m ≤ 12) :
    month_bounds y m = some (⟨y, m, 1⟩, ⟨y, m, daysInMonth y m⟩) ∧
    month_bounds_28 y m = month_bounds y m ∧
    dateLe ⟨y, m, 1⟩ ⟨y, m, daysInMonth y m⟩ := by
  have h28 := daysInMonth_ge_28 y m h1 h2
  refine ⟨month_bounds_spec y m h1 h2, ?_, ?_⟩
  · rw [month_bounds_spec y m h1 h2, month_bounds_28_spec y m h1 h2]
  · exact Or.inr ⟨rfl, Or.inr ⟨rfl, show 1 ≤ daysInMonth y m from by omega⟩⟩

/-- Witness for C10 at (2024, 2), a leap February. -/
theorem month_bounds_implementations_agree_witness :
    1 ≤ 2 ∧ 2 ≤ 12 ∧
    (month_bounds 2024 2 = some (⟨2024, 2, 1⟩, ⟨2024, 2, daysInMonth 2024 2⟩) ∧
     month_bounds_28 2024 2 = month_bounds 2024 2 ∧
     dateLe ⟨2024, 2, 1⟩ ⟨2024, 2, daysInMonth 2024 2⟩) :=
  ⟨by norm_num, by norm_num,
   month_bounds_implementations_agree 2024 2 (by norm_num) (by norm_num)⟩

theorem daysInMonth_prev_year (y : Int) (m : Nat) (h1 : 1 ≤ m) (h2 : m ≤ 12) :
    (daysInMonth y m ≤ daysInMonth (y - 1) m) ↔
      ¬(m = 2 ∧ isLeap y = true ∧ isLeap (y - 1) = false) := by
  interval_cases m <;> cases hL : isLeap y <;> cases hL2 : isLeap (y - 1) <;>
    norm_num [daysInMonth, hL, hL2]

/-- C7: the prior-year-to-date window ends on `date(year - 1, month, d)` where
`d` is the literal day of the current window's end; window construction fails
(`ValueError`, modelled `none`) exactly when that day does not exist in
`year - 1` — the leap February case — and is never clamped. -/
theorem prepare_windows_prior_ytd_literal_day (y : Int) (m : Nat)
    (h1 : 1 ≤ m) (h2 : m ≤ 12) :
    (prepare_windows y m = none ↔ (m = 2 ∧ isLeap y = true ∧ isLeap (y - 1) = false)) ∧
    (∀ w, prepare_windows y m = some w →
      w.2.2.2.1.2 = ⟨y - 1, m, w.1.2.day⟩ ∧ w.1.2.day = daysInMonth y m) := by
  have h28 := daysInMonth_ge_28 y m h1 h2
  rw [prepare_windows, month_bounds_28_spec y m h1 h2]
  simp only []
  have hprev : ∃ pS pE, month_bounds_28 (if 1 < m then y else y - 1)
      (if 1 < m then m - 1 else 12) = some (pS, pE) := by
    by_cases hm : 1 < m
    · rw [if_pos hm, if_pos hm, month_bounds_28_spec y (m - 1) (by omega) (by omega)]
      exact ⟨_, _, rfl⟩
    · rw [if_neg hm, if_neg hm, month_bounds_28_spec (y - 1) 12 (by norm_num) (by norm_num)]
      exact ⟨_, _, rfl⟩
  obtain ⟨pS, pE, hP⟩ := hprev
  rw [hP]
  simp only []
  rw [mkDate_first y 1 (by norm_num) (by norm_num),
      mkDate_first (y - 1) 1 (by norm_num) (by norm_num)]
  simp only []
  by_cases hfail : m = 2 ∧ isLeap y = true ∧ isLeap (y - 1) = false
  · have hlt : ¬ daysInMonth y m ≤ daysInMonth (y - 1) m := by
      rw [daysInMonth_prev_year y m h1 h2]
      simpa using hfail
    rw [show mkDate (y - 1) m (daysInMonth y m) = none from by
      rw [mkDate, if_neg]
      intro hc
      exact hlt hc.2.2.2]
    refine ⟨iff_of_true rfl hfail, ?_⟩
    intro w hw
    exact absurd hw (by simp)
  · have hle : daysInMonth y m ≤ daysInMonth (y - 1) m :=
      (daysInMonth_prev_year y m h1 h2).mpr hfail
    rw [show mkDate (y - 1) m (daysInMonth y m) = some ⟨y - 1, m, daysInMonth y m⟩ from by
      rw [mkDate, if_pos]
      exact ⟨h1, h2, by omega, hle⟩]
    simp only []
    rw [month_bounds_28_spec (y - 1) m h1 h2]
    simp only []
    refine ⟨iff_of_false (by simp) hfail, ?_⟩
    intro w hw
    have hww := Option.some.inj hw
    subst hww
    exact ⟨rfl, rfl⟩

/-- Witness for C7 at (2024, 2): February 2024 ends on the 29th, 2023 has no
February 29, so the prior-year-to-date window construction fails. -/
theorem prepare_windows_prior_ytd_literal_day_witness :
    1 ≤ 2 ∧ 2 ≤ 12 ∧ prepare_windows 2024 2 = none :=
  ⟨by norm_num, by norm_num,
   (prepare_windows_prior_ytd_literal_day 2024 2 (by norm_num) (by norm_num)).1.mpr
     ⟨rfl, by decide, by decide⟩⟩

/-- C2: the KPI calculator on the empty batch returns count 0 and every other
statistic undefined (`math.nan`, modelled `none`) rather than zero or a
number. -/
theorem compute_kpis_empty_batch :
    (compute_kpis []).count = 0 ∧ (compute_kpis []).median = none ∧
    (compute_kpis []).p90 = none ∧ (compute_kpis []).miss_pub = none ∧
    (compute_kpis []).miss_org = none :=
  ⟨rfl, rfl, rfl, rfl, rfl⟩

/-- C3: percent change is undefined exactly when the prior is zero, undefined
(NaN) or absent (`None`), and otherwise equals `(cur - prior) / prior * 100`
exactly; the embedded function is total (the Python code raises nothing) and
its values live in `ℚ`, which has no infinity. -/
theorem pct_change_defined_iff (c : ℚ) (prev : Option ℚ) :
    (pct_change (some c) prev = none ↔ prev = none ∨ prev = some 0) ∧
    (∀ p : ℚ, prev = some p → p ≠ 0 →
      pct_change (some c) prev = some ((c - p) / p * 100)) := by
  constructor
  · cases prev with
    | none => simp [pct_change]
    | some p => by_cases hp : p = 0 <;> simp [pct_change, hp]
  · intro p hp hp0
    subst hp
    simp [pct_change, hp0]

/-- Witness for C3: a zero prior is undefined; prior 2 against current 3
gives exactly 50 percent. -/
theorem pct_change_defined_iff_witness :
    pct_change (some 3) (some 0) = none ∧
    pct_change (some 3) (some 2) = some ((3 - 2) / 2 * 100) :=
  ⟨(pct_change_defined_iff 3 (some 0)).1.mpr (Or.inr rfl),
   (pct_change_defined_iff 3 (some 2)).2 2 rfl (by norm_num)⟩

/-- C9: mix extraction over codes `["A", "A", "B"]` with label dictionary
`{"A": "Foo"}` yields exactly `[("A", "Foo", 66.7), ("B", "", 33.3)]` —
shares of the batch as percentages rounded to one decimal, in descending
share order, with an empty label for the unmapped code — and records `"B"`
as unmapped for operator follow-up. -/
theorem compute_mix_example :
    compute_mix [some "A", some "A", some "B"] [("A", "Foo")] =
      ([("A", "Foo", 667 / 10), ("B", "", 333 / 10)], ["B"]) := by
  have hA : round1 ((200 : ℚ) / 3) = 667 / 10 := by
    unfold round1 roundHalfEven
    have hf1 : ⌊(200 : ℚ) / 3 * 10⌋ = 666 := by
      rw [Int.floor_eq_iff]
      constructor
      · norm_num
      · norm_num
    rw [hf1, if_neg (by norm_num), round_eq]
    have hf2 : ⌊(200 : ℚ) / 3 * 10 + 1 / 2⌋ = 667 := by
      rw [Int.floor_eq_iff]
      constructor
      · norm_num
      · norm_num
    rw [hf2]
    norm_num
  have hB : round1 ((100 : ℚ) / 3) = 333 / 10 := by
    unfold round1 roundHalfEven
    have hf1 : ⌊(100 : ℚ) / 3 * 10⌋ = 333 := by
      rw [Int.floor_eq_iff]
      constructor
      · norm_num
      · norm_num
    rw [hf1, if_neg (by norm_num), round_eq]
    have hf2 : ⌊(100 : ℚ) / 3 * 10 + 1 / 2⌋ = 333 := by
      rw [Int.floor_eq_iff]
      constructor
      · norm_num
      · norm_num
    rw [hf2]
    norm_num
  simp [compute_mix, value_counts, countDesc, List.insertionSort, List.orderedInsert,
    List.dedup, List.count, List.countP, List.countP.go, List.lookup]
  norm_num [hA, hB]

theorem drop_duplicates_ada_props (l : List NRec) :
    ∀ seen : List (Option String),
      ((drop_duplicates_ada seen l).map (·.ada)).Nodup ∧
      ∀ a ∈ (drop_duplicates_ada seen l).map (·.ada), a ∉ seen ∧ a ∈ l.map (·.ada) := by
  induction l with
  | nil => intro seen; simp [drop_duplicates_ada]
  | cons r rs ih =>
    intro seen
    rw [drop_duplicates_ada]
    by_cases hmem : r.ada ∈ seen
    · rw [if_pos hmem]
      obtain ⟨hnd, hm⟩ := ih seen
      refine ⟨hnd, ?_⟩
      intro a ha
      obtain ⟨ha1, ha2⟩ := hm a ha
      exact ⟨ha1, by simp [List.mem_cons]; right; simpa using ha2⟩
    · rw [if_neg hmem]
      obtain ⟨hnd, hm⟩ := ih (r.ada :: seen)
      constructor
      · simp only [List.map_cons, List.nodup_cons]
        refine ⟨?_, hnd⟩
        intro hc
        exact ((hm r.ada hc).1 (List.mem_cons_self _ _)).elim
      · intro a ha
        simp only [List.map_cons, List.mem_cons] at ha
        rcases ha with rfl | ha
        · exact ⟨hmem, by simp⟩
        · obtain ⟨ha1, ha2⟩ := hm a ha
          refine ⟨fun hc => ha1 (List.mem_cons_of_mem _ hc), ?_⟩
          simp [List.mem_cons]
          right
          simpa using ha2

theorem nodup_length_le_toFinset_card {α : Type} [DecidableEq α]
    {l big : List α} (hnd : l.Nodup) (hsub : ∀ a ∈ l, a ∈ big) :
    l.length ≤ big.toFinset.card := by
  calc l.length = l.toFinset.card := (List.toFinset_card_of_nodup hnd).symm
  _ ≤ big.toFinset.card := by
      apply Finset.card_le_card
      intro a ha
      rw [List.mem_toFinset] at ha ⊢
      exact hsub a ha

/-- C5: outlier extraction (delay-descending sort, deduplication by `ada`
keeping the first and therefore highest-delay occurrence, then the top
`limit`) never returns two records with the same identifier, and its length
is at most `min(limit, number of distinct identifiers in the batch)`. -/
theorem slowest_decisions_nodup_and_bounded (df : List NRec) (limit : Nat) :
    ((slowest_decisions df limit).map (·.ada)).Nodup ∧
    (slowest_decisions df limit).length ≤
      min limit ((df.map (·.ada)).toFinset.card) := by
  have hperm : List.Perm (List.insertionSort (fun a b => delayDescB a b = true) df) df :=
    List.perm_insertionSort _ df
  obtain ⟨hnd, hm⟩ :=
    drop_duplicates_ada_props (List.insertionSort (fun a b => delayDescB a b = true) df) []
  constructor
  · rw [slowest_decisions, List.map_take]
    exact hnd.sublist (List.take_sublist _ _)
  · rw [slowest_decisions, List.length_take]
    apply min_le_min (le_refl limit)
    have hlen : (drop_duplicates_ada []
        (List.insertionSort (fun a b => delayDescB a b = true) df)).length =
        ((drop_duplicates_ada []
          (List.insertionSort (fun a b => delayDescB a b = true) df)).map (·.ada)).length := by
      rw [List.length_map]
    rw [hlen]
    apply nodup_length_le_toFinset_card hnd
    intro a ha
    have hmem2 := (hm a ha).2
    rw [List.mem_map] at hmem2 ⊢
    obtain ⟨x, hx, rfl⟩ := hmem2
    exact ⟨x, hperm.mem_iff.mp hx, rfl⟩

/-- C1, counterexample: on the spec's own example batch (records in March and
May 2024, none in April), the monthly series has two entries — one per
distinct month present — not three entries for the three calendar months of
the spanned range, and no April entry with count 0 exists. -/
theorem monthly_series_gap_counterexample :
    (compute_recent_months C1batch).map (·.month) = [(2024, 3), (2024, 5)] ∧
    (compute_recent_months C1batch).length = 2 ∧
    ¬ ((compute_recent_months C1batch).length = 3 ∧
       ∃ e ∈ compute_recent_months C1batch, e.month = (2024, 4)) := by
  refine ⟨?_, ?_, ?_⟩ <;> decide

/-- C1, amended: the monthly series of the trend engine has exactly one entry
per distinct calendar month present among the parseable issue dates, in
chronological order; calendar months with zero records are omitted, so the
series length is the number of distinct months present (and every entry's
count is positive when every record carries an `ada`);
`compute_recent_months` is the last six entries of that series. -/
theorem monthly_series_months_present_only (df : List NRec) :
    (monthlySeries df).map (·.month) =
      List.insertionSort monthLe (df.filterMap monthKey).dedup ∧
    (monthlySeries df).length = (df.filterMap monthKey).dedup.length ∧
    (∀ e ∈ monthlySeries df, e.month ∈ df.filterMap monthKey) ∧
    ((∀ r ∈ df, r.ada.isSome) → ∀ e ∈ monthlySeries df, 1 ≤ e.count) ∧
    compute_recent_months df = pdTail 6 (monthlySeries df) := by
  have hmap : (monthlySeries df).map (·.month) =
      List.insertionSort monthLe (df.filterMap monthKey).dedup := by
    rw [monthlySeries]
    rw [List.map_map]
    exact List.map_id _
  refine ⟨hmap, ?_, ?_, ?_, ?_⟩
  · have hlen := congrArg List.length hmap
    rw [List.length_map, List.length_insertionSort] at hlen
    exact hlen
  · intro e he
    rw [monthlySeries, List.mem_map] at he
    obtain ⟨k, hk, rfl⟩ := he
    rw [List.mem_insertionSort, List.mem_dedup] at hk
    exact hk
  · intro hada e he
    rw [monthlySeries, List.mem_map] at he
    obtain ⟨k, hk, rfl⟩ := he
    rw [List.mem_insertionSort, List.mem_dedup, List.mem_filterMap] at hk
    obtain ⟨r, hr, hrk⟩ := hk
    have hrg : r ∈ df.filter (fun r => decide (monthKey r = some k)) := by
      rw [List.mem_filter]
      exact ⟨hr, by simp [hrk]⟩
    have hrg2 : r ∈ (df.filter (fun r => decide (monthKey r = some k))).filter
        (fun r => r.ada.isSome) := by
      rw [List.mem_filter]
      exact ⟨hrg, hada r hr⟩
    have hpos := List.length_pos.mpr (List.ne_nil_of_mem hrg2)
    simpa using hpos
  · rw [compute_recent_months]
    by_cases h0 : df.length = 0
    · rw [if_pos h0]
      rw [List.length_eq_zero] at h0
      subst h0
      rfl
    · rw [if_neg h0]

/-- Witness for the amended C1 statement on the example batch, whose records
all carry an `ada`. -/
theorem monthly_series_months_present_only_witness :
    (∀ r ∈ C1batch, r.ada.isSome) ∧ (∀ e ∈ monthlySeries C1batch, 1 ≤ e.count) :=
  ⟨by decide, (monthly_series_months_present_only C1batch).2.2.2.1 (by decide)⟩

/-- C4: region classification is deterministic (a pure function of the record
and the table), an exact `organizationUid` hit in the explicit table always
wins, a non-empty region-named field wins over keyword inference, and a
record matching none of the three strategies gets the Unknown region
`"Άγνωστη"`. -/
theorem infer_region_layered_order (row : Row) (mapping : List (String × String)) :
    (∀ row2 mapping2, row = row2 → mapping = mapping2 →
      infer_region row mapping = infer_region row2 mapping2) ∧
    (∀ uid region, rowGet row "organizationUid" = some uid →
      mapping.lookup uid = some region → infer_region row mapping = region) ∧
    ((rowGet row "organizationUid").bind (fun uid => mapping.lookup uid) = none →
      ∀ v, region_field_value row = some v →
        infer_region row mapping = normalize_region v) ∧
    ((rowGet row "organizationUid").bind (fun uid => mapping.lookup uid) = none →
      region_field_value row = none → keyword_region row = none →
      infer_region row mapping = "Άγνωστη") := by
  refine ⟨?_, ?_, ?_, ?_⟩
  · intro row2 mapping2 h1 h2
    rw [h1, h2]
  · intro uid region h1 h2
    rw [infer_region, h1]
    simp only [Option.bind, h2]
  · intro h1 v h2
    rw [infer_region, h1, h2]
  · intro h1 h2 h3
    rw [infer_region, h1, h2, h3]

/-- Witness for C4: an explicit-table hit overrides both a present region
field and a keyword match; a region field is normalized when no table hit
exists; a record matching nothing is Unknown. -/
theorem infer_region_layered_order_witness :
    (rowGet [("organizationUid", some "ORG1"), ("regionLabel", some "ΚΡΗΤΗ"),
        ("organizationName", some "ΔΗΜΟΣ ΑΘΗΝΑΙΩΝ")] "organizationUid" = some "ORG1" ∧
     infer_region [("organizationUid", some "ORG1"), ("regionLabel", some "ΚΡΗΤΗ"),
        ("organizationName", some "ΔΗΜΟΣ ΑΘΗΝΑΙΩΝ")] [("ORG1", "Αττική")] = "Αττική") ∧
    infer_region [("organizationUid", some "ORGX"), ("myRegion", some " κρητη ")] [] =
      normalize_region " κρητη " ∧
    infer_region [("organizationUid", some "ORGX"), ("subject", some "ΠΛΗΡΩΜΗ")] [] =
      "Άγνωστη" :=
  ⟨⟨by decide,
    (infer_region_layered_order _ _).2.1 "ORG1" "Αττική" (by decide) (by decide)⟩,
   (infer_region_layered_order _ _).2.2.1 (by decide) " κρητη " (by decide),
   (infer_region_layered_order _ _).2.2.2 (by decide) (by decide) (by decide)⟩

/-- C8, counterexample: on a non-empty raw batch in which no record carries
the issuance-timestamp key at all, the pandas column access raises
(`KeyError`, modelled `Except.error`), so normalization is not raise-free on
every malformed input. -/
theorem enrich_dates_missing_column_counterexample :
    enrich_dates [{ ada := some "X", issueDate := none, submissionTimestamp := none }] =
      .error () := rfl

theorem enrichRecord_delay_eq (r : RawRec) :
    (enrichRecord r).delay_days =
      match (r.issueDate.bind id).bind parseTs,
            (r.submissionTimestamp.bind id).bind parseTs with
      | some a, some b => some (((tsSeconds b - tsSeconds a : Int) : ℚ) / 86400)
      | _, _ => none := rfl

/-- C8, amended: provided each timestamp column exists (at least one record
carries the key), normalization never raises: every record is kept in order,
a record whose issuance or submission timestamp fails the fixed-format parse
gets an undefined delay, and a record whose both timestamps parse gets
delay = (submission − issuance) in fractional days (seconds / 86400). -/
theorem enrich_dates_no_raise_when_columns_exist (df : List RawRec)
    (hI : ∃ r ∈ df, r.issueDate.isSome) (hS : ∃ r ∈ df, r.submissionTimestamp.isSome) :
    enrich_dates df = .ok (df.map enrichRecord) ∧
    (df.map enrichRecord).length = df.length ∧
    (∀ r : RawRec, (enrichRecord r).raw = r) ∧
    (∀ r : RawRec,
      ((r.issueDate.bind id).bind parseTs = none ∨
       (r.submissionTimestamp.bind id).bind parseTs = none) →
      (enrichRecord r).delay_days = none) ∧
    (∀ (r : RawRec) (a b : PyDateTime),
      (r.issueDate.bind id).bind parseTs = some a →
      (r.submissionTimestamp.bind id).bind parseTs = some b →
      (enrichRecord r).delay_days =
        some (((tsSeconds b - tsSeconds a : Int) : ℚ) / 86400)) := by
  refine ⟨?_, List.length_map _ _, fun r => rfl, ?_, ?_⟩
  · obtain ⟨rI, hrI, hrIs⟩ := hI
    obtain ⟨rS, hrS, hrSs⟩ := hS
    have h1 : ¬ df.length = 0 := by
      have hne := List.ne_nil_of_mem hrI
      simpa [List.length_eq_zero] using hne
    have h2 : ¬ (df.all fun r => r.issueDate = none) = true := by
      simp only [List.all_eq_true, decide_eq_true_eq]
      push_neg
      exact ⟨rI, hrI, Option.isSome_iff_ne_none.mp hrIs⟩
    have h3 : ¬ (df.all fun r => r.submissionTimestamp = none) = true := by
      simp only [List.all_eq_true, decide_eq_true_eq]
      push_neg
      exact ⟨rS, hrS, Option.isSome_iff_ne_none.mp hrSs⟩
    rw [enrich_dates, if_neg h1, if_neg h2, if_neg h3]
  · intro r hor
    cases hor with
    | inl h => rw [enrichRecord_delay_eq, h]
    | inr h =>
      rw [enrichRecord_delay_eq, h]
      cases hi : (r.issueDate.bind id).bind parseTs <;> rfl
  · intro r a b ha hb
    rw [enrichRecord_delay_eq, ha, hb]

/-- Witness for the amended C8 statement: a batch with one malformed and one
well-formed record normalizes without error; the malformed record's delay is
undefined and the well-formed record's delay is the timestamp difference in
fractional days. -/
theorem enrich_dates_no_raise_when_columns_exist_witness :
    enrich_dates [C8bad, C8good] = .ok ([C8bad, C8good].map enrichRecord) ∧
    (enrichRecord C8bad).delay_days = none ∧
    (enrichRecord C8good).delay_days =
      some (((tsSeconds ⟨⟨2024, 3, 2⟩, 12, 0, 0⟩ -
              tsSeconds ⟨⟨2024, 3, 1⟩, 0, 0, 0⟩ : Int) : ℚ) / 86400) :=
  ⟨(enrich_dates_no_raise_when_columns_exist [C8bad, C8good]
      (by decide) (by decide)).1,
   (enrich_dates_no_raise_when_columns_exist [C8bad, C8good]
      (by decide) (by decide)).2.2.2.1 C8bad (Or.inl (by decide)),
   (enrich_dates_no_raise_when_columns_exist [C8bad, C8good]
      (by decide) (by decide)).2.2.2.2 C8good _ _ (by decide) (by decide)⟩

theorem fetch_export_loop_zero {α : Type} (pages : Nat → Nat → List α) (page : Nat) :
    fetch_export_loop pages 0 page = ([], []) := by
  rw [fetch_export_loop, dif_pos rfl]

theorem fetch_export_loop_spec {α : Type} (pages : Nat → Nat → List α)
    (honest : ∀ p s, (pages p s).length ≤ s) :
    ∀ remaining page : Nat,
      (fetch_export_loop pages remaining page).1.length ≤ remaining ∧
      ∀ i, i + 1 < (fetch_export_loop pages remaining page).2.length →
        ∃ e, (fetch_export_loop pages remaining page).2[i]? = some e ∧
          e.size = PAGE_SIZE ∧ e.batchLen = PAGE_SIZE ∧
          PAGE_SIZE * (i + 1) < remaining := by
  intro remaining
  induction remaining using Nat.strong_induction_on with
  | _ remaining IH =>
    intro page
    have hPS : PAGE_SIZE = 500 := rfl
    rw [fetch_export_loop]
    by_cases h0 : remaining = 0
    · rw [dif_pos h0]
      exact ⟨by simp, fun i hi => absurd hi (by simp)⟩
    · rw [dif_neg h0]
      simp only []
      have hhon := honest page (min PAGE_SIZE remaining)
      by_cases hb0 : (pages page (min PAGE_SIZE remaining)).length = 0
      · rw [if_pos hb0]
        exact ⟨by simp, fun i hi => absurd hi (by simp)⟩
      · rw [if_neg hb0]
        by_cases hlt : (pages page (min PAGE_SIZE remaining)).length < PAGE_SIZE
        · rw [dif_pos hlt]
          refine ⟨?_, fun i hi => absurd hi (by simp)⟩
          show (pages page (min PAGE_SIZE remaining)).length ≤ remaining
          omega
        · rw [dif_neg hlt]
          simp only []
          have hlen : (pages page (min PAGE_SIZE remaining)).length = PAGE_SIZE := by
            omega
          have hps : PAGE_SIZE ≤ remaining := by omega
          have hpos : 0 < PAGE_SIZE := by omega
          obtain ⟨IHa, IHb⟩ :=
            IH (remaining - (pages page (min PAGE_SIZE remaining)).length)
              (by omega) (page + 1)
          constructor
          · show ((pages page (min PAGE_SIZE remaining)) ++
              (fetch_export_loop pages
                (remaining - (pages page (min PAGE_SIZE remaining)).length)
                (page + 1)).1).length ≤ remaining
            rw [List.length_append]
            omega
          · intro i hi
            match i with
            | 0 =>
              refine ⟨⟨page, min PAGE_SIZE remaining,
                (pages page (min PAGE_SIZE remaining)).length⟩, by simp, ?_, ?_, ?_⟩
              · show min PAGE_SIZE remaining = PAGE_SIZE
                omega
              · show (pages page (min PAGE_SIZE remaining)).length = PAGE_SIZE
                exact hlen
              · have hne : remaining - (pages page (min PAGE_SIZE remaining)).length ≠ 0 := by
                  intro hz
                  rw [hz, fetch_export_loop_zero] at hi
                  simp at hi
                rw [hPS] at hlen ⊢
                omega
            | j + 1 =>
              have hj : j + 1 <
                  (fetch_export_loop pages
                    (remaining - (pages page (min PAGE_SIZE remaining)).length)
                    (page + 1)).2.length := by
                simp only [List.length_cons] at hi
                omega
              obtain ⟨e2, hget, hsz, hbl, hbound⟩ := IHb j hj
              refine ⟨e2, ?_, hsz, hbl, ?_⟩
              · simpa using hget
              · rw [hPS] at hbound hlen ⊢
                omega

/-- C6: for every honest page oracle (a response never exceeds the requested
size), the paginated fetcher accumulates at most `MAX_RESULTS` records, and
every page request except possibly the last was justified: the preceding
response was a full page of `PAGE_SIZE` records (condition (a) had not
triggered) and the accumulated count `PAGE_SIZE * (i + 1)` was still below
the cap (condition (b) had not triggered) — no request is issued after
either condition triggers. -/
theorem fetch_export_cap_and_stop {α : Type} (pages : Nat → Nat → List α)
    (honest : ∀ p s, (pages p s).length ≤ s) :
    (fetch_export pages).1.length ≤ MAX_RESULTS ∧
    ∀ i, i + 1 < (fetch_export pages).2.length →
      ∃ e, (fetch_export pages).2[i]? = some e ∧ e.size = PAGE_SIZE ∧
        e.batchLen = PAGE_SIZE ∧ PAGE_SIZE * (i + 1) < MAX_RESULTS := by
  have h := fetch_export_loop_spec pages honest MAX_RESULTS 0
  rw [fetch_export]
  exact h

/-- Witness for C6 on the demonstration oracle (a full page then a short
page). -/
theorem fetch_export_cap_and_stop_witness :
    (fetch_export demoPages).1.length ≤ MAX_RESULTS ∧
    ∀ i, i + 1 < (fetch_export demoPages).2.length →
      ∃ e, (fetch_export demoPages).2[i]? = some e ∧ e.size = PAGE_SIZE ∧
        e.batchLen = PAGE_SIZE ∧ PAGE_SIZE * (i + 1) < MAX_RESULTS :=
  fetch_export_cap_and_stop demoPages (fun p s => by
    rw [demoPages, List.length_replicate]
    exact min_le_left _ _)
